import Mathlib

/-
  Verification of the LedgerOne aggregation, alert and CSV-import core.

  Shallow embedding of:
    backend/app/services/transaction_service.py  (aggregation engine)
    backend/app/services/alert_service.py        (alert engine)
    backend/app/services/import_service.py       (bulk import pipeline)

  Modelling conventions:
  - Monetary amounts (SQL Float columns) are modelled as exact rationals;
    Python round(x, 2) is modelled as exact half-even rounding to 2 decimals.
  - The database is a pair of lists (categories, transactions); SQL queries
    are modelled as list filters, joins as membership tests over category ids
    (the primary key makes ids unique, recorded in the DB.WF invariant).
  - Python dictionaries keyed by category name are modelled as association
    lists with first-match lookup (getByKey) and in-place update (setKey),
    matching dict insertion-order semantics.
-/

namespace LedgerOne

attribute [local semireducible] Rat.add Rat.mul Rat.inv Rat.sub Rat.ofScientific

/-- A calendar date, year-month-day. -/
structure Date where
  year : Nat
  month : Nat
  day : Nat
deriving DecidableEq

/-- Strict lexicographic comparison of dates: `dateLt a b` means a < b. -/
def dateLt (a b : Date) : Bool :=
  a.year < b.year ||
    (a.year == b.year && (a.month < b.month ||
      (a.month == b.month && a.day < b.day)))

/-- models/category.py: Category row (id PK, unique name, optional color,
optional non-negative monthly budget). -/
structure Category where
  id : Nat
  name : String
  color : Option String
  monthlyBudget : Option ℚ
deriving DecidableEq

/-- models/transaction.py: Transaction row. The autoincrement id and the
created_at timestamp play no role in the verified operations and are omitted. -/
structure Txn where
  date : Date
  description : String
  amount : ℚ
  categoryId : Option Nat
deriving DecidableEq

/-- The persisted ledger state: the categories and transactions tables,
plus the next primary-key value the store would hand out on a flush. -/
structure DB where
  categories : List Category
  transactions : List Txn
  nextCatId : Nat
deriving DecidableEq

/-- Referential integrity: every transaction category reference points at an
existing category row (the FK constraint of models/transaction.py). -/
def fkOk (db : DB) : Bool :=
  db.transactions.all (fun t =>
    match t.categoryId with
    | none => true
    | some i => db.categories.any (fun c => c.id == i))

/-- Store-level invariants enforced by the schema: unique category names,
unique primary keys, and foreign-key integrity. -/
def DB.WF (db : DB) : Prop :=
  (db.categories.map Category.name).Nodup ∧
  (db.categories.map Category.id).Nodup ∧
  fkOk db = true

instance (db : DB) : Decidable db.WF := by
  unfold DB.WF; infer_instance

/-! ## Rounding: model of Python round(x, 2) on exact rationals -/

/-- Round to the nearest integer, ties to even (Python banker rounding). -/
def roundHalfEven (q : ℚ) : ℤ :=
  let f : ℤ := ⌊q⌋
  let frac : ℚ := q - (f : ℚ)
  if frac < 1/2 then f
  else if 1/2 < frac then f + 1
  else if f % 2 = 0 then f else f + 1

/-- Model of Python round(x, 2): round to 2 decimal places, ties to even. -/
def round2 (q : ℚ) : ℚ := (roundHalfEven (q * 100) : ℚ) / 100

/-! ## Association lists modelling Python dicts keyed by strings -/

/-- First-match lookup, the model of Python dict access / dict.get. -/
def getByKey {α : Type} : List (String × α) → String → Option α
  | [], _ => none
  | p :: rest, k => if p.1 = k then some p.2 else getByKey rest k

/-- Model of Python dict assignment d[k] = v: replace the value at an
existing key in place, otherwise append the new binding. -/
def setKey {α : Type} (l : List (String × α)) (k : String) (v : α) :
    List (String × α) :=
  if l.any (fun p => p.1 == k) then
    l.map (fun p => if p.1 = k then (k, v) else p)
  else l ++ [(k, v)]

/-- Sum of all values of an association list (sum of dict.values()). -/
def sumValues (l : List (String × ℚ)) : ℚ := (l.map Prod.snd).sum

/-! ## Aggregation engine (transaction_service.py) -/

/-- The (year, month) window predicate shared by every aggregation query:
extract(year, date) == year AND extract(month, date) == month. -/
def inWindow (y m : Nat) (t : Txn) : Bool :=
  t.date.year == y && t.date.month == m

/-- All transactions of the ledger falling in the (year, month) window. -/
def windowTxns (db : DB) (y m : Nat) : List Txn :=
  db.transactions.filter (inWindow y m)

/-- Transactions of the window belonging to the given category
(join on Transaction.category_id == Category.id). -/
def catTxns (db : DB) (y m : Nat) (c : Category) : List Txn :=
  db.transactions.filter (fun t => inWindow y m t && t.categoryId == some c.id)

/-- Sum of the amounts of the window transactions of one category. -/
def catAmount (db : DB) (y m : Nat) (c : Category) : ℚ :=
  ((catTxns db y m c).map Txn.amount).sum

/-- Transactions of the window with no category reference
(Transaction.category_id IS NULL). -/
def uncatTxns (db : DB) (y m : Nat) : List Txn :=
  db.transactions.filter (fun t => inWindow y m t && t.categoryId == none)

/-- Sum of the amounts of the uncategorized window transactions; the SQL
scalar is None on an empty window, which the caller treats as falsy exactly
like a 0.0 sum, so the empty sum 0 models both. -/
def uncatSum (db : DB) (y m : Nat) : ℚ :=
  ((uncatTxns db y m).map Txn.amount).sum

/-- get_monthly_total: full-precision sum of the amounts in the window,
optionally restricted to one category id; 0 when no row matches. -/
def get_monthly_total (db : DB) (y m : Nat) (categoryId : Option Nat) : ℚ :=
  ((db.transactions.filter (fun t =>
      inWindow y m t &&
      match categoryId with
      | none => true
      | some i => t.categoryId == some i)).map Txn.amount).sum

/-- The literal key the code uses for the uncategorized bucket. -/
def SANS_CATEGORIE : String := "Sans catégorie"

/-- The grouped part of get_total_by_category: the outer join is nullified by
the window filter, so the query yields one (name, sum) group per category
having at least one window transaction, in category-table order. -/
def namedTotals (db : DB) (y m : Nat) : List (String × ℚ) :=
  (db.categories.filter (fun c => !(catTxns db y m c).isEmpty)).map
    (fun c => (c.name, catAmount db y m c))

/-- get_total_by_category: the grouped per-name totals, then
totals[SANS_CATEGORIE] = uncategorized sum, executed only when that sum is
truthy (non-None and nonzero). -/
def get_total_by_category (db : DB) (y m : Nat) : List (String × ℚ) :=
  let totals := namedTotals db y m
  let u := uncatSum db y m
  if u ≠ 0 then setKey totals SANS_CATEGORIE u else totals

/-- One value of the get_category_breakdown mapping. -/
structure BreakdownEntry where
  total : ℚ
  percentage : ℚ
  count : Nat
deriving DecidableEq

/-- The independent count query of get_category_breakdown: for the sentinel
key it counts the uncategorized window transactions, otherwise it counts the
window transactions joined to a category of that name. -/
def labelCount (db : DB) (y m : Nat) (name : String) : Nat :=
  if name = SANS_CATEGORIE then (uncatTxns db y m).length
  else
    (db.transactions.filter (fun t =>
      inWindow y m t &&
      db.categories.any (fun c => t.categoryId == some c.id && c.name == name))).length

/-- get_category_breakdown: empty when the sum of the totals mapping is 0,
otherwise one entry per totals key with rounded total, rounded percentage of
that same sum, and the independently counted transaction count. -/
def get_category_breakdown (db : DB) (y m : Nat) :
    List (String × BreakdownEntry) :=
  let totals := get_total_by_category db y m
  let g := sumValues totals
  if g = 0 then []
  else
    totals.map (fun p =>
      (p.1, ⟨round2 p.2, round2 (p.2 / g * 100), labelCount db y m p.1⟩))

/-- The record returned by get_monthly_summary. -/
structure Summary where
  total : ℚ
  count : Nat
  average : ℚ
  byCategory : List (String × BreakdownEntry)
deriving DecidableEq

/-- get_monthly_summary: rounded monthly total, window transaction count,
rounded average computed from the unrounded total (0.0 when the count is 0),
and the category breakdown. -/
def get_monthly_summary (db : DB) (y m : Nat) : Summary :=
  let total := get_monthly_total db y m none
  let count := (windowTxns db y m).length
  let average : ℚ := if count > 0 then total / (count : ℚ) else 0
  ⟨round2 total, count, round2 average, get_category_breakdown db y m⟩

/-! ## Alert engine (alert_service.py) -/

/-- One budget-overage alert; category is none for the global scope. -/
structure Alert where
  scope : String
  category : Option String
  budget : ℚ
  actual : ℚ
  delta : ℚ
deriving DecidableEq

/-- _check_global_budget: no alert when the settings budget is absent or
exactly 0; otherwise one alert iff the monthly total strictly exceeds it,
with every monetary field rounded at emission. -/
def check_global_budget (globalBudget : Option ℚ) (db : DB) (y m : Nat) :
    List Alert :=
  match globalBudget with
  | none => []
  | some b =>
    if b = 0 then []
    else
      let actual := get_monthly_total db y m none
      if b < actual then
        [⟨"global", none, round2 b, round2 actual, round2 (actual - b)⟩]
      else []

/-- _check_category_budgets: walk the category table in order; skip
categories whose budget is absent or 0; read the actual spend from the
totals mapping with default 0.0; emit an alert iff actual exceeds budget. -/
def check_category_budgets (db : DB) (y m : Nat) : List Alert :=
  let actuals := get_total_by_category db y m
  db.categories.filterMap (fun c =>
    match c.monthlyBudget with
    | none => none
    | some b =>
      if b = 0 then none
      else
        let actual := (getByKey actuals c.name).getD 0
        if b < actual then
          some ⟨"category", some c.name, round2 b, round2 actual,
                round2 (actual - b)⟩
        else none)

/-- get_budget_alerts: the global check followed by the per-category check. -/
def get_budget_alerts (globalBudget : Option ℚ) (db : DB) (y m : Nat) :
    List Alert :=
  check_global_budget globalBudget db y m ++ check_category_budgets db y m

/-! ## Import pipeline (import_service.py) -/

/-- One parsed CSV data row as produced by csv.DictReader: each expected
column is either absent (missing column) or holds the raw cell text. -/
structure Row where
  date : Option String
  description : Option String
  amount : Option String
  category : Option String
deriving DecidableEq

/-- Model of Python str.strip(): remove whitespace from both ends. Defined
on the character list so that it evaluates inside the kernel. -/
def pyStrip (s : String) : String :=
  ⟨((s.data.dropWhile Char.isWhitespace).reverse.dropWhile
      Char.isWhitespace).reverse⟩

/-- Split a character list on a separator character. -/
def splitOnChar (sep : Char) : List Char → List (List Char)
  | [] => [[]]
  | c :: rest =>
    let r := splitOnChar sep rest
    if c = sep then [] :: r
    else
      match r with
      | h :: t => (c :: h) :: t
      | [] => [[c]]

/-- Numeric value of a digit list (most significant first). -/
def digitsVal (l : List Char) : Nat :=
  l.foldl (fun n c => n * 10 + (c.toNat - 48)) 0

/-- A nonempty all-digit field, or nothing. -/
def digitsToNat? (l : List Char) : Option Nat :=
  if !l.isEmpty && l.all Char.isDigit then some (digitsVal l) else none

/-- Gregorian leap-year rule used by the calendar module. -/
def isLeap (y : Nat) : Bool :=
  (y % 4 == 0 && y % 100 != 0) || y % 400 == 0

/-- Number of days of a month (calendar.monthrange second component). -/
def daysInMonth (y mo : Nat) : Nat :=
  if mo = 2 then (if isLeap y then 29 else 28)
  else if mo = 4 || mo = 6 || mo = 9 || mo = 11 then 30
  else 31

/-- Model of datetime.strptime(s, %Y-%m-%d).date(): three dash-separated
decimal fields forming a valid calendar date. -/
def parseDate (s : String) : Option Date :=
  match splitOnChar '-' s.data with
  | [ys, ms, ds] =>
    match digitsToNat? ys, digitsToNat? ms, digitsToNat? ds with
    | some y, some mo, some d =>
      if 1 ≤ mo && mo ≤ 12 && 1 ≤ d && d ≤ daysInMonth y mo then
        some ⟨y, mo, d⟩
      else none
    | _, _, _ => none
  | _ => none

/-- Unsigned decimal literal: digits, or digits-dot-digits with at least one
digit overall. -/
def parseDecimal (t : List Char) : Option ℚ :=
  match splitOnChar '.' t with
  | [a] =>
    if !a.isEmpty && a.all Char.isDigit then some ((digitsVal a : ℚ))
    else none
  | [a, b] =>
    if (!a.isEmpty || !b.isEmpty) &&
        a.all Char.isDigit && b.all Char.isDigit then
      some ((digitsVal a : ℚ) + (digitsVal b : ℚ) / ((10 : ℚ) ^ b.length))
    else none
  | _ => none

/-- Model of Python float(s) on the decimal literals the importer consumes:
an optional sign followed by an unsigned decimal literal. -/
def parseAmount (s : String) : Option ℚ :=
  match s.data with
  | '-' :: rest => (parseDecimal rest).map Neg.neg
  | '+' :: rest => parseDecimal rest
  | l => parseDecimal l

/-- The row-scoped error prefix used by every per-row message. -/
def ligne (n : Nat) (msg : String) : String :=
  "Ligne " ++ toString n ++ ": " ++ msg

/-- validate_row: the five checks in program order; returns none when the
row is valid and the first failing message otherwise. -/
def validate_row (today : Date) (row : Row) (n : Nat) : Option String :=
  if (pyStrip (row.date.getD "")) = "" then
    some (ligne n "La date est obligatoire")
  else
    match parseDate (pyStrip (row.date.getD "")) with
    | none => some (ligne n "La date doit être au format YYYY-MM-DD")
    | some d =>
      if dateLt today d then
        some (ligne n "La date ne peut pas être dans le futur")
      else if (pyStrip (row.description.getD "")) = "" then
        some (ligne n "La description est obligatoire")
      else if (pyStrip (row.amount.getD "")) = "" then
        some (ligne n "Le montant est obligatoire")
      else
        match parseAmount (pyStrip (row.amount.getD "")) with
        | none => some (ligne n "Le montant doit être un nombre (ex: 45.99)")
        | some a =>
          if a = 0 then some (ligne n "Le montant ne peut être égal à 0")
          else none

/-- Default color given to auto-created categories. -/
def DEFAULT_CATEGORY_COLOR : String := "#505050"

/-- The in-flight import session: the category rows visible to queries
(persisted rows plus flushed ones), the next primary key a flush would
assign, and the staged (added, uncommitted) transactions. -/
structure Sess where
  categories : List Category
  nextCatId : Nat
  staged : List Txn
deriving DecidableEq

/-- The session state at the start of a batch: it sees the persisted
categories and has staged nothing. -/
def Sess.ofDB (db : DB) : Sess := ⟨db.categories, db.nextCatId, []⟩

/-- get_or_create_category: first match by exact name; on a miss, add a new
category with the default color and no budget and flush it, making its
generated id visible to the rest of the batch before the final commit. -/
def get_or_create_category (s : Sess) (name : String) : Category × Sess :=
  match s.categories.find? (fun c => c.name == name) with
  | some c => (c, s)
  | none =>
    let c : Category := ⟨s.nextCatId, name, some DEFAULT_CATEGORY_COLOR, none⟩
    (c, { s with categories := s.categories ++ [c],
                 nextCatId := s.nextCatId + 1 })

/-- Staging of one validated row: resolve the category when the category
cell is non-empty after trimming, then re-parse date and amount and add the
transaction to the session. The parse failures cannot occur for a row that
passed validation; they are modelled as a false flag so that the loop can
take the same skip-and-continue branch as the Python except handler (which
fires after the category resolution side effect and does not undo it). -/
def stageRow (row : Row) (s : Sess) : Bool × Sess :=
  let catField := pyStrip (row.category.getD "")
  let resolved : Option Nat × Sess :=
    if catField ≠ "" then
      let r := get_or_create_category s catField
      (some r.1.id, r.2)
    else (none, s)
  match parseDate (pyStrip (row.date.getD "")),
        parseAmount (pyStrip (row.amount.getD "")) with
  | some d, some a =>
    (true, { resolved.2 with staged := resolved.2.staged ++
        [⟨d, pyStrip (row.description.getD ""), a, resolved.1⟩] })
  | _, _ => (false, resolved.2)

/-- The import report: inserted and skipped counters and the error list. -/
structure Report where
  inserted : Nat
  skipped : Nat
  errors : List String
deriving DecidableEq

/-- The row loop of import_transactions_from_csv: rows are numbered from 2
(the header is row 1); an invalid row is skipped with its message recorded
and processing continues; a valid row is staged and counted as inserted,
unless staging fails, which is skipped with a row-scoped import error. -/
def processRows (today : Date) (n : Nat) (rows : List Row) (s : Sess) :
    Report × Sess :=
  match rows with
  | [] => (⟨0, 0, []⟩, s)
  | row :: rest =>
    match validate_row today row n with
    | some err =>
      let r := processRows today (n + 1) rest s
      (⟨r.1.inserted, r.1.skipped + 1, err :: r.1.errors⟩, r.2)
    | none =>
      let st := stageRow row s
      if st.1 then
        let r := processRows today (n + 1) rest st.2
        (⟨r.1.inserted + 1, r.1.skipped, r.1.errors⟩, r.2)
      else
        let r := processRows today (n + 1) rest st.2
        (⟨r.1.inserted, r.1.skipped + 1,
          ligne n "Erreur lors de l\x27import" :: r.1.errors⟩, r.2)

/-- The decoded payload handed to the importer: either text that failed
UTF-8 decoding, or the parsed list of CSV data rows. -/
inductive Payload where
  | undecodable : Payload
  | decoded : List Row → Payload
deriving DecidableEq

/-- import_transactions_from_csv: decode, parse, abort on an empty batch,
run the row loop, then commit the staged batch as one unit. commitError
models the environment: some msg makes the final commit raise, which rolls
every staged write back and returns the zeroed batch-failure report. -/
def import_transactions_from_csv (today : Date) (payload : Payload)
    (commitError : Option String) (db : DB) : Report × DB :=
  match payload with
  | .undecodable =>
    (⟨0, 0, ["Erreur de décodage : le fichier doit être encodé en UTF-8"]⟩, db)
  | .decoded rows =>
    if rows.isEmpty then
      (⟨0, 0, ["Le fichier CSV est vide ou mal formaté"]⟩, db)
    else
      let r := processRows today 2 rows (Sess.ofDB db)
      match commitError with
      | some msg => (⟨0, 0, ["Erreur lors de l\x27import : " ++ msg]⟩, db)
      | none =>
        (r.1, ⟨r.2.categories, db.transactions ++ r.2.staged, r.2.nextCatId⟩)

/-! ## Concrete ledgers and rows used to instantiate the theorems -/

/-- A category with a configured budget. -/
def exCat : Category := ⟨1, "Alimentation", some "#ff0000", some 300⟩

/-- A category with a small budget that january spending exceeds. -/
def exCatB : Category := ⟨2, "Transport", none, some 40⟩

/-- A well-formed ledger: two categories, three january transactions
(one uncategorized) and one february transaction. -/
def exDB : DB :=
  ⟨[exCat, exCatB],
   [⟨⟨2025, 1, 15⟩, "Courses", 45.5, some 1⟩,
    ⟨⟨2025, 1, 16⟩, "Essence", 60, some 2⟩,
    ⟨⟨2025, 1, 17⟩, "Retrait", 10, none⟩,
    ⟨⟨2025, 2, 1⟩, "Autre", 99, some 1⟩], 3⟩

/-- A ledger whose two categorized january amounts cancel exactly. -/
def exDBcancel : DB :=
  ⟨[exCat, exCatB],
   [⟨⟨2025, 1, 10⟩, "Achat", 10, some 1⟩,
    ⟨⟨2025, 1, 11⟩, "Remboursement", -10, some 2⟩], 3⟩

/-- A ledger whose uncategorized january transactions cancel exactly. -/
def exDB9 : DB :=
  ⟨[exCat],
   [⟨⟨2025, 1, 5⟩, "Courses", 7, some 1⟩,
    ⟨⟨2025, 1, 6⟩, "Achat", 5, none⟩,
    ⟨⟨2025, 1, 7⟩, "Remboursement", -5, none⟩], 2⟩

/-- A user category whose display name collides with the reserved label. -/
def exCatS : Category := ⟨1, "Sans catégorie", none, none⟩

/-- A ledger containing the colliding category with 10 of spend plus an
uncategorized transaction of 5 in the same window. -/
def exDB10 : DB :=
  ⟨[exCatS],
   [⟨⟨2025, 1, 10⟩, "Courses", 10, some 1⟩,
    ⟨⟨2025, 1, 11⟩, "Achat", 5, none⟩], 2⟩

/-- A ledger with two sub-cent category totals: 0.004 rounds to 0.00 per
label while the 0.008 monthly total rounds to 0.01. -/
def exDB8 : DB :=
  ⟨[⟨1, "A", none, none⟩, ⟨2, "B", none, none⟩],
   [⟨⟨2025, 1, 1⟩, "Micro", 1/250, some 1⟩,
    ⟨⟨2025, 1, 2⟩, "Micro", 1/250, some 2⟩], 3⟩

/-- The reference day used when instantiating the import pipeline. -/
def tdyEx : Date := ⟨2025, 6, 1⟩

/-- A row with an unparseable month, otherwise valid. -/
def rowBad : Row := ⟨some "2025-13-01", some "mauvaise", some "5", none⟩

/-- A valid row whose cells need trimming and whose category exists. -/
def rowOk : Row := ⟨some "2025-01-15", some " ok ", some "45.50", some " Alimentation "⟩

/-- A valid row naming a category absent from exDB. -/
def rowNew : Row := ⟨some "2025-01-16", some "nouveau", some "-7.25", some "Nouvelle"⟩

/-- A second valid row naming the same absent category. -/
def rowNew2 : Row := ⟨some "2025-01-17", some "encore", some "3", some "Nouvelle"⟩

/-! ## Association-list lemmas -/

theorem getByKey_eq_none {α : Type} {l : List (String × α)} {k : String}
    (h : ∀ p ∈ l, p.1 ≠ k) : getByKey l k = none := by
  induction l with
  | nil => rfl
  | cons p rest ih =>
    simp only [getByKey]
    rw [if_neg (h p (by simp))]
    exact ih (fun q hq => h q (List.mem_cons_of_mem _ hq))

theorem getByKey_append {α : Type} (l₁ l₂ : List (String × α)) (k : String) :
    getByKey (l₁ ++ l₂) k =
      match getByKey l₁ k with
      | some v => some v
      | none => getByKey l₂ k := by
  induction l₁ with
  | nil => rfl
  | cons p rest ih =>
    simp only [List.cons_append, getByKey]
    by_cases hp : p.1 = k
    · simp [hp]
    · rw [if_neg hp, if_neg hp]
      exact ih

theorem getByKey_map {α β : Type} (f : String → α → β)
    (l : List (String × α)) (k : String) :
    getByKey (l.map (fun p => (p.1, f p.1 p.2))) k
      = (getByKey l k).map (f k) := by
  induction l with
  | nil => rfl
  | cons p rest ih =>
    simp only [List.map_cons, getByKey]
    by_cases hp : p.1 = k
    · subst hp; simp
    · rw [if_neg hp, if_neg hp]
      exact ih

theorem setKey_of_absent {α : Type} {l : List (String × α)} {k : String}
    (v : α) (h : ∀ p ∈ l, p.1 ≠ k) : setKey l k v = l ++ [(k, v)] := by
  unfold setKey
  rw [if_neg]
  intro hany
  obtain ⟨p, hp, hpk⟩ := List.any_eq_true.mp hany
  exact h p hp (by simpa using hpk)

theorem getByKey_replaceKey {α : Type} {l : List (String × α)} {k : String}
    (v : α) (hany : (l.any fun p => p.1 == k) = true) :
    getByKey (l.map (fun p => if p.1 = k then (k, v) else p)) k = some v := by
  induction l with
  | nil => simp at hany
  | cons p rest ih =>
    simp only [List.map_cons, getByKey]
    by_cases hp : p.1 = k
    · simp [hp]
    · simp only [List.any_cons, Bool.or_eq_true] at hany
      rcases hany with hph | hrest
      · exact absurd (by simpa using hph) hp
      · simp only [if_neg hp]
        exact ih hrest

theorem getByKey_replaceKey_ne {α : Type} (l : List (String × α))
    (k k' : String) (v : α) (h : k' ≠ k) :
    getByKey (l.map (fun p => if p.1 = k then (k, v) else p)) k'
      = getByKey l k' := by
  induction l with
  | nil => rfl
  | cons p rest ih =>
    simp only [List.map_cons, getByKey]
    by_cases hp : p.1 = k
    · simp only [if_pos hp]
      rw [if_neg (show ¬((k, v).1 = k') from fun hkk => h hkk.symm)]
      rw [if_neg (show ¬(p.1 = k') from
            fun hpk => h ((hp.symm.trans hpk).symm))]
      exact ih
    · simp only [if_neg hp]
      by_cases hp' : p.1 = k'
      · rw [if_pos hp', if_pos hp']
      · rw [if_neg hp', if_neg hp']
        exact ih

theorem getByKey_setKey_self {α : Type} (l : List (String × α))
    (k : String) (v : α) : getByKey (setKey l k v) k = some v := by
  unfold setKey
  split
  · next hany => exact getByKey_replaceKey v hany
  · next hany =>
    rw [getByKey_append]
    have hnone : getByKey l k = none := by
      refine getByKey_eq_none (fun p hp hpk => ?_)
      exact hany (List.any_eq_true.mpr ⟨p, hp, by simpa using hpk⟩)
    rw [hnone]
    simp [getByKey]

theorem getByKey_setKey_ne {α : Type} (l : List (String × α))
    (k k' : String) (v : α) (h : k' ≠ k) :
    getByKey (setKey l k v) k' = getByKey l k' := by
  unfold setKey
  split
  · exact getByKey_replaceKey_ne l k k' v h
  · rw [getByKey_append]
    have h1 : getByKey [(k, v)] k' = none := by
      simp only [getByKey]
      rw [if_neg (show ¬((k, v).1 = k') from fun hkk => h hkk.symm)]
    rw [h1]
    cases getByKey l k' <;> rfl

/-! ## Lookup in the grouped per-category mapping -/

theorem getByKey_catMap {α : Type} (P : Category → Bool) (f : Category → α) :
    ∀ (L : List Category), (L.map Category.name).Nodup → ∀ c ∈ L,
      getByKey ((L.filter P).map (fun d => (d.name, f d))) c.name
        = if P c then some (f c) else none := by
  intro L
  induction L with
  | nil => intro _ c hc; exact absurd hc (List.not_mem_nil c)
  | cons a L ih =>
    intro hnd c hc
    rw [List.map_cons, List.nodup_cons] at hnd
    obtain ⟨hna, hnd'⟩ := hnd
    rcases List.mem_cons.mp hc with rfl | hcL
    · by_cases hPa : P c
      · rw [List.filter_cons_of_pos hPa, List.map_cons]
        simp [getByKey, hPa]
      · rw [List.filter_cons_of_neg hPa, if_neg hPa]
        refine getByKey_eq_none (fun p hp => ?_)
        obtain ⟨d, hd, rfl⟩ := List.mem_map.mp hp
        have hdL : d ∈ L := List.mem_of_mem_filter hd
        exact fun hdc => hna (hdc ▸ List.mem_map_of_mem Category.name hdL)
    · have hcname : c.name ≠ a.name := by
        intro he
        exact hna (he ▸ List.mem_map_of_mem Category.name hcL)
      by_cases hPa : P a
      · rw [List.filter_cons_of_pos hPa, List.map_cons]
        simp only [getByKey]
        rw [if_neg (fun he => hcname he.symm)]
        exact ih hnd' c hcL
      · rw [List.filter_cons_of_neg hPa]
        exact ih hnd' c hcL

theorem getByKey_catMap_absent {α : Type} (P : Category → Bool)
    (f : Category → α) (L : List Category) (k : String)
    (h : ∀ c ∈ L, c.name ≠ k) :
    getByKey ((L.filter P).map (fun d => (d.name, f d))) k = none := by
  refine getByKey_eq_none (fun p hp => ?_)
  obtain ⟨d, hd, rfl⟩ := List.mem_map.mp hp
  exact h d (List.mem_of_mem_filter hd)

/-! ## Rounding lemmas -/

theorem roundHalfEven_intCast (z : ℤ) : roundHalfEven (z : ℚ) = z := by
  unfold roundHalfEven
  rw [Int.floor_intCast]
  norm_num

theorem round2_div_hundred (z : ℤ) :
    round2 ((z : ℚ) / 100) = (z : ℚ) / 100 := by
  unfold round2
  rw [div_mul_cancel₀ _ (by norm_num : (100 : ℚ) ≠ 0), roundHalfEven_intCast]

theorem round2_zero : round2 0 = 0 := by
  have := round2_div_hundred 0
  simpa using this

theorem round2_fix_exists {q : ℚ} (h : round2 q = q) :
    ∃ z : ℤ, q = (z : ℚ) / 100 :=
  ⟨roundHalfEven (q * 100), h.symm⟩

theorem sum_twodec {l : List ℚ} (h : ∀ q ∈ l, ∃ z : ℤ, q = (z : ℚ) / 100) :
    ∃ Z : ℤ, l.sum = (Z : ℚ) / 100 := by
  induction l with
  | nil => exact ⟨0, by simp⟩
  | cons q rest ih =>
    obtain ⟨z, hz⟩ := h q (List.mem_cons_self q rest)
    obtain ⟨Z, hZ⟩ := ih (fun r hr => h r (List.mem_cons_of_mem _ hr))
    refine ⟨z + Z, ?_⟩
    rw [List.sum_cons, hz, hZ]
    push_cast
    ring

/-! ## Shape lemmas for get_total_by_category -/

theorem uncatSum_of_nil {db : DB} {y m : Nat} (h : uncatTxns db y m = []) :
    uncatSum db y m = 0 := by
  unfold uncatSum
  rw [h]
  rfl

theorem isEmpty_false_of_ne_nil {α : Type} {l : List α} (h : l ≠ []) :
    l.isEmpty = false := by
  cases l with
  | nil => exact absurd rfl h
  | cons a t => rfl

theorem getByKey_namedTotals {db : DB} {y m : Nat}
    (hnames : (db.categories.map Category.name).Nodup) :
    ∀ c ∈ db.categories,
      getByKey (namedTotals db y m) c.name
        = if !(catTxns db y m c).isEmpty then some (catAmount db y m c)
          else none :=
  getByKey_catMap (fun c => !(catTxns db y m c).isEmpty)
    (fun c => catAmount db y m c) db.categories hnames

theorem getByKey_namedTotals_absent {db : DB} {y m : Nat} {k : String}
    (h : ∀ c ∈ db.categories, c.name ≠ k) :
    getByKey (namedTotals db y m) k = none :=
  getByKey_catMap_absent (fun c => !(catTxns db y m c).isEmpty)
    (fun c => catAmount db y m c) db.categories k h

/-- C1 (amended): over a well-formed ledger in which no user category bears
the reserved display name, totalsByCategory maps each category name having
at least one window transaction to the sum of those transactions, omits
categories with no window transaction, maps the reserved label to the
uncategorized sum whenever that sum is nonzero (so uncategorized
transactions are never counted under a named category), and the reserved
label appears only if at least one uncategorized transaction exists in the
window. -/
theorem totalsByCategory_spec (db : DB) (y m : Nat) (hwf : db.WF)
    (hns : ∀ c ∈ db.categories, c.name ≠ SANS_CATEGORIE) :
    (∀ c ∈ db.categories, catTxns db y m c ≠ [] →
        getByKey (get_total_by_category db y m) c.name
          = some (catAmount db y m c)) ∧
    (∀ c ∈ db.categories, catTxns db y m c = [] →
        getByKey (get_total_by_category db y m) c.name = none) ∧
    (uncatSum db y m ≠ 0 →
        getByKey (get_total_by_category db y m) SANS_CATEGORIE
          = some (uncatSum db y m)) ∧
    (getByKey (get_total_by_category db y m) SANS_CATEGORIE ≠ none →
        uncatTxns db y m ≠ []) := by
  obtain ⟨hnames, -, -⟩ := hwf
  refine ⟨?_, ?_, ?_, ?_⟩
  · intro c hc hct
    have hcs : c.name ≠ SANS_CATEGORIE := hns c hc
    have hIe : (catTxns db y m c).isEmpty = false := isEmpty_false_of_ne_nil hct
    unfold get_total_by_category
    by_cases hu : uncatSum db y m = 0
    · rw [if_neg (not_not_intro hu), getByKey_namedTotals hnames c hc, hIe]
      rfl
    · rw [if_pos hu, getByKey_setKey_ne _ _ _ _ hcs,
        getByKey_namedTotals hnames c hc, hIe]
      rfl
  · intro c hc hct
    have hcs : c.name ≠ SANS_CATEGORIE := hns c hc
    have hIe : (catTxns db y m c).isEmpty = true := by rw [hct]; rfl
    unfold get_total_by_category
    by_cases hu : uncatSum db y m = 0
    · rw [if_neg (not_not_intro hu), getByKey_namedTotals hnames c hc, hIe]
      rfl
    · rw [if_pos hu, getByKey_setKey_ne _ _ _ _ hcs,
        getByKey_namedTotals hnames c hc, hIe]
      rfl
  · intro hu
    unfold get_total_by_category
    rw [if_pos hu]
    exact getByKey_setKey_self _ _ _
  · intro hne
    by_contra h0
    have hz : uncatSum db y m = 0 := uncatSum_of_nil h0
    apply hne
    unfold get_total_by_category
    rw [if_neg (not_not_intro hz)]
    exact getByKey_namedTotals_absent hns

/-- C1 counterexample: in exDB10 the category named like the reserved label
has one window transaction summing to 10, yet the mapping reports 5 (the
uncategorized total) for its display name, so the claim that every category
with window transactions maps to the sum of its own transactions fails. -/
theorem totalsByCategory_collision_cex :
    exCatS ∈ exDB10.categories ∧
    catTxns exDB10 2025 1 exCatS ≠ [] ∧
    catAmount exDB10 2025 1 exCatS = 10 ∧
    getByKey (get_total_by_category exDB10 2025 1) exCatS.name = some 5 ∧
    (5 : ℚ) ≠ 10 :=
  ⟨by decide, by decide, by decide, by decide, by decide⟩

/-- C1 witness: the amended theorem applied to the concrete ledger exDB. -/
theorem totalsByCategory_spec_witness :
    exDB.WF ∧ (∀ c ∈ exDB.categories, c.name ≠ SANS_CATEGORIE) ∧
    catTxns exDB 2025 1 exCat ≠ [] ∧
    getByKey (get_total_by_category exDB 2025 1) exCat.name
      = some (catAmount exDB 2025 1 exCat) :=
  ⟨by decide, by decide, by decide,
   (totalsByCategory_spec exDB 2025 1 (by decide) (by decide)).1 exCat
     (by decide) (by decide)⟩

/-! ## Lookup in the breakdown mapping -/

theorem labelCount_sentinel (db : DB) (y m : Nat) :
    labelCount db y m SANS_CATEGORIE = (uncatTxns db y m).length := by
  unfold labelCount
  rw [if_pos rfl]

theorem getByKey_breakdown (db : DB) (y m : Nat) (k : String) :
    getByKey (get_category_breakdown db y m) k
      = if sumValues (get_total_by_category db y m) = 0 then none
        else
          (getByKey (get_total_by_category db y m) k).map (fun t =>
            ⟨round2 t,
             round2 (t / sumValues (get_total_by_category db y m) * 100),
             labelCount db y m k⟩) := by
  unfold get_category_breakdown
  by_cases hg : sumValues (get_total_by_category db y m) = 0
  · rw [if_pos hg, if_pos hg]
    rfl
  · rw [if_neg hg, if_neg hg]
    exact getByKey_map
      (fun k t =>
        ({ total := round2 t,
           percentage :=
             round2 (t / sumValues (get_total_by_category db y m) * 100),
           count := labelCount db y m k } : BreakdownEntry))
      (get_total_by_category db y m) k

/-- C9: when the window contains uncategorized transactions whose amounts
sum to exactly 0, the totals mapping is just the grouped named part, so the
uncategorized bucket is omitted and (when no user category is named like the
reserved label) those transactions appear under no key of totalsByCategory
or categoryBreakdown. -/
theorem uncategorized_zero_sum_omitted (db : DB) (y m : Nat)
    (hne : uncatTxns db y m ≠ []) (hz : uncatSum db y m = 0) :
    get_total_by_category db y m = namedTotals db y m ∧
    ((∀ c ∈ db.categories, c.name ≠ SANS_CATEGORIE) →
      getByKey (get_total_by_category db y m) SANS_CATEGORIE = none ∧
      getByKey (get_category_breakdown db y m) SANS_CATEGORIE = none) := by
  have h1 : get_total_by_category db y m = namedTotals db y m := by
    unfold get_total_by_category
    rw [if_neg (not_not_intro hz)]
  refine ⟨h1, fun hns => ?_⟩
  have h2 : getByKey (get_total_by_category db y m) SANS_CATEGORIE = none := by
    rw [h1]
    exact getByKey_namedTotals_absent hns
  refine ⟨h2, ?_⟩
  rw [getByKey_breakdown]
  by_cases hg : sumValues (get_total_by_category db y m) = 0
  · rw [if_pos hg]
  · rw [if_neg hg, h2]
    rfl

/-- C9 witness: in exDB9 the uncategorized january transactions 5 and -5
cancel, so the reserved label is absent from both mappings. -/
theorem uncategorized_zero_sum_omitted_witness :
    uncatTxns exDB9 2025 1 ≠ [] ∧ uncatSum exDB9 2025 1 = 0 ∧
    (∀ c ∈ exDB9.categories, c.name ≠ SANS_CATEGORIE) ∧
    getByKey (get_total_by_category exDB9 2025 1) SANS_CATEGORIE = none ∧
    getByKey (get_category_breakdown exDB9 2025 1) SANS_CATEGORIE = none :=
  ⟨by decide, by decide, by decide,
   ((uncategorized_zero_sum_omitted exDB9 2025 1 (by decide) (by decide)).2
     (by decide)).1,
   ((uncategorized_zero_sum_omitted exDB9 2025 1 (by decide) (by decide)).2
     (by decide)).2⟩

/-- C10: the sentinel label is not reserved: when a user category bears the
code sentinel name, has window transactions, and the uncategorized sum is
nonzero, the totals mapping reports the uncategorized sum under the single
shared key (overwriting the grouped total of the real category), and the
breakdown entry under that key counts only the transactions with no
category reference. -/
theorem sentinel_label_not_reserved (db : DB) (y m : Nat) (c : Category)
    (hc : c ∈ db.categories) (hn : c.name = SANS_CATEGORIE)
    (hct : catTxns db y m c ≠ []) (hu : uncatSum db y m ≠ 0) :
    getByKey (get_total_by_category db y m) SANS_CATEGORIE
      = some (uncatSum db y m) ∧
    (sumValues (get_total_by_category db y m) ≠ 0 →
      getByKey (get_category_breakdown db y m) SANS_CATEGORIE
        = some ⟨round2 (uncatSum db y m),
                round2 (uncatSum db y m
                  / sumValues (get_total_by_category db y m) * 100),
                (uncatTxns db y m).length⟩) := by
  have h1 : getByKey (get_total_by_category db y m) SANS_CATEGORIE
      = some (uncatSum db y m) := by
    unfold get_total_by_category
    rw [if_pos hu]
    exact getByKey_setKey_self _ _ _
  refine ⟨h1, fun hg => ?_⟩
  rw [getByKey_breakdown, if_neg hg, h1, Option.map_some',
    labelCount_sentinel]

/-- C10 witness: in exDB10 the colliding category has 10 of spend but the
shared key reports the uncategorized total 5, counted over the single
uncategorized transaction. -/
theorem sentinel_label_not_reserved_witness :
    exCatS ∈ exDB10.categories ∧ exCatS.name = SANS_CATEGORIE ∧
    catTxns exDB10 2025 1 exCatS ≠ [] ∧ uncatSum exDB10 2025 1 ≠ 0 ∧
    getByKey (get_total_by_category exDB10 2025 1) SANS_CATEGORIE
      = some (uncatSum exDB10 2025 1) ∧
    getByKey (get_category_breakdown exDB10 2025 1) SANS_CATEGORIE
      = some ⟨round2 (uncatSum exDB10 2025 1),
              round2 (uncatSum exDB10 2025 1
                / sumValues (get_total_by_category exDB10 2025 1) * 100),
              (uncatTxns exDB10 2025 1).length⟩ :=
  ⟨by decide, by decide, by decide, by decide,
   (sentinel_label_not_reserved exDB10 2025 1 exCatS (by decide) (by decide)
     (by decide) (by decide)).1,
   (sentinel_label_not_reserved exDB10 2025 1 exCatS (by decide) (by decide)
     (by decide) (by decide)).2 (by decide)⟩

/-! ## The independent count query on a named category -/

theorem labelCount_named (db : DB) (y m : Nat) (c : Category)
    (hwf : db.WF) (hc : c ∈ db.categories) (hs : c.name ≠ SANS_CATEGORIE) :
    labelCount db y m c.name = (catTxns db y m c).length := by
  obtain ⟨hnames, -, -⟩ := hwf
  unfold labelCount catTxns
  rw [if_neg hs]
  have key : ∀ t : Txn,
      (db.categories.any
        (fun c' => t.categoryId == some c'.id && c'.name == c.name))
      = (t.categoryId == some c.id) := by
    intro t
    by_cases ht : t.categoryId = some c.id
    · rw [ht, beq_self_eq_true]
      rw [List.any_eq_true]
      exact ⟨c, hc, by simp⟩
    · rw [beq_eq_false_iff_ne.mpr ht]
      rw [List.any_eq_false]
      intro c' hc' hpc'
      rw [Bool.and_eq_true] at hpc'
      obtain ⟨h1, h2⟩ := hpc'
      have hname : c'.name = c.name := by simpa using h2
      have hcc : c' = c := List.inj_on_of_nodup_map hnames hc' hc hname
      exact ht (by simpa [hcc] using h1)
  have : (db.transactions.filter (fun t =>
      inWindow y m t &&
      db.categories.any
        (fun c' => t.categoryId == some c'.id && c'.name == c.name)))
      = db.transactions.filter (fun t =>
          inWindow y m t && t.categoryId == some c.id) := by
    apply List.filter_congr
    intro t _
    rw [key t]
  rw [this]

/-- C5: categoryBreakdown is empty exactly when the sum of the values of
the totals mapping is 0 (even when individual labels carry nonzero
canceling totals); otherwise every label of the totals mapping is assigned
its total rounded to 2 decimals, its rounded percentage of that same sum,
and the independently counted number of contributing window transactions
(the uncategorized count for the sentinel label, the per-category
transaction count for a named label). -/
theorem categoryBreakdown_spec (db : DB) (y m : Nat) (hwf : db.WF) :
    (sumValues (get_total_by_category db y m) = 0 →
      get_category_breakdown db y m = []) ∧
    (sumValues (get_total_by_category db y m) ≠ 0 →
      ∀ k, getByKey (get_category_breakdown db y m) k
        = (getByKey (get_total_by_category db y m) k).map (fun t =>
            ⟨round2 t,
             round2 (t / sumValues (get_total_by_category db y m) * 100),
             labelCount db y m k⟩)) ∧
    (labelCount db y m SANS_CATEGORIE = (uncatTxns db y m).length) ∧
    (∀ c ∈ db.categories, c.name ≠ SANS_CATEGORIE →
      labelCount db y m c.name = (catTxns db y m c).length) := by
  refine ⟨?_, ?_, labelCount_sentinel db y m, ?_⟩
  · intro hg
    unfold get_category_breakdown
    rw [if_pos hg]
  · intro hg k
    rw [getByKey_breakdown, if_neg hg]
  · intro c hc hs
    exact labelCount_named db y m c hwf hc hs

/-- C5 witness: the canceling ledger exDBcancel has labels with totals 10
and -10 but a zero mapping sum, so its breakdown is empty; on exDB the
breakdown entry of the Alimentation label carries the rounded total,
percentage and count. -/
theorem categoryBreakdown_spec_witness :
    exDBcancel.WF ∧
    sumValues (get_total_by_category exDBcancel 2025 1) = 0 ∧
    get_total_by_category exDBcancel 2025 1 ≠ [] ∧
    get_category_breakdown exDBcancel 2025 1 = [] ∧
    (sumValues (get_total_by_category exDB 2025 1) ≠ 0 ∧
      getByKey (get_category_breakdown exDB 2025 1) "Alimentation"
        = (getByKey (get_total_by_category exDB 2025 1) "Alimentation").map
            (fun t =>
              ⟨round2 t,
               round2 (t / sumValues (get_total_by_category exDB 2025 1)
                 * 100),
               labelCount exDB 2025 1 "Alimentation"⟩)) :=
  ⟨by decide, by decide, by decide,
   (categoryBreakdown_spec exDBcancel 2025 1 (by decide)).1 (by decide),
   by decide,
   (categoryBreakdown_spec exDB 2025 1 (by decide)).2.1 (by decide)
     "Alimentation"⟩

/-- C6: monthlySummary returns the rounded monthly total, the window
transaction count regardless of category, the rounded average of the
unrounded total over the count when the count is positive and 0.0
otherwise, and the category breakdown; a window with no transaction yields
a monthly total of 0 and an average of 0. -/
theorem monthlySummary_spec (db : DB) (y m : Nat) :
    (get_monthly_summary db y m).total
      = round2 (get_monthly_total db y m none) ∧
    (get_monthly_summary db y m).count = (windowTxns db y m).length ∧
    ((windowTxns db y m).length ≠ 0 →
      (get_monthly_summary db y m).average
        = round2 (get_monthly_total db y m none
            / ((windowTxns db y m).length : ℚ))) ∧
    ((windowTxns db y m).length = 0 →
      (get_monthly_summary db y m).average = 0) ∧
    (get_monthly_summary db y m).byCategory = get_category_breakdown db y m ∧
    (windowTxns db y m = [] →
      get_monthly_total db y m none = 0 ∧
      (get_monthly_summary db y m).average = 0) := by
  have htot : get_monthly_total db y m none
      = ((windowTxns db y m).map Txn.amount).sum := by
    unfold get_monthly_total windowTxns
    congr 1
    apply congrArg
    apply List.filter_congr
    intro t _
    exact Bool.and_true _
  refine ⟨rfl, rfl, ?_, ?_, rfl, ?_⟩
  · intro hcount
    unfold get_monthly_summary
    simp only [if_pos (Nat.pos_of_ne_zero hcount)]
  · intro hcount
    unfold get_monthly_summary
    rw [hcount]
    simp only [gt_iff_lt, lt_self_iff_false, if_false]
    exact round2_zero
  · intro hwin
    have h0 : get_monthly_total db y m none = 0 := by
      rw [htot, hwin]
      rfl
    constructor
    · exact h0
    · unfold get_monthly_summary
      rw [hwin]
      simp only [List.length_nil, gt_iff_lt, lt_self_iff_false, if_false]
      exact round2_zero

/-- C6 witness: the summary of exDB for january 2025 and for an empty
window. -/
theorem monthlySummary_spec_witness :
    ((windowTxns exDB 2025 1).length ≠ 0 ∧
      (get_monthly_summary exDB 2025 1).average
        = round2 (get_monthly_total exDB 2025 1 none
            / ((windowTxns exDB 2025 1).length : ℚ))) ∧
    (windowTxns exDB 2024 7 = [] ∧
      get_monthly_total exDB 2024 7 none = 0 ∧
      (get_monthly_summary exDB 2024 7).average = 0) :=
  ⟨⟨by decide,
    (monthlySummary_spec exDB 2025 1).2.2.1 (by decide)⟩,
   ⟨by decide,
    ((monthlySummary_spec exDB 2024 7).2.2.2.2.2 (by decide)).1,
    ((monthlySummary_spec exDB 2024 7).2.2.2.2.2 (by decide)).2⟩⟩

/-! ## Alert lemmas -/

theorem nodup_filterMap_names {f : Category → Option Alert}
    (hf : ∀ c a, f c = some a → a.category = some c.name) :
    ∀ (L : List Category), (L.map Category.name).Nodup →
      (L.filterMap f).Nodup := by
  intro L
  induction L with
  | nil => intro _; simp
  | cons c L ih =>
    intro hnd
    rw [List.map_cons, List.nodup_cons] at hnd
    obtain ⟨hnc, hnd'⟩ := hnd
    rw [List.filterMap_cons]
    cases hfc : f c with
    | none => exact ih hnd'
    | some al =>
      rw [List.nodup_cons]
      refine ⟨?_, ih hnd'⟩
      intro hmem
      obtain ⟨d, hd, hfd⟩ := List.mem_filterMap.mp hmem
      have h1 := hf c al hfc
      have h2 := hf d al hfd
      have hname : c.name = d.name := by
        rw [h1] at h2
        exact Option.some.inj h2
      exact hnc (hname ▸ List.mem_map_of_mem Category.name hd)

/-- C2: budget alerts are emitted exactly on overage of a configured
nonzero budget. The global check yields exactly one alert iff the settings
budget is present, nonzero and strictly below the monthly total, with every
monetary field rounded at emission and the delta computed from the exact
difference. A category alert exists for a category iff its configured
budget is nonzero and strictly below its spend read from the totals mapping
(0 when its name is absent); the emitted list has no duplicate, and the
public operation is the global check followed by the category check. -/
theorem budgetAlerts_spec (gb : Option ℚ) (db : DB) (y m : Nat)
    (hwf : db.WF) :
    (gb = none → check_global_budget gb db y m = []) ∧
    (gb = some 0 → check_global_budget gb db y m = []) ∧
    (∀ b, gb = some b → b ≠ 0 → b < get_monthly_total db y m none →
      check_global_budget gb db y m
        = [⟨"global", none, round2 b,
            round2 (get_monthly_total db y m none),
            round2 (get_monthly_total db y m none - b)⟩]) ∧
    (∀ b, gb = some b → b ≠ 0 → ¬b < get_monthly_total db y m none →
      check_global_budget gb db y m = []) ∧
    (∀ a, a ∈ check_category_budgets db y m ↔
      ∃ c ∈ db.categories, ∃ b, c.monthlyBudget = some b ∧ b ≠ 0 ∧
        b < (getByKey (get_total_by_category db y m) c.name).getD 0 ∧
        a = ⟨"category", some c.name, round2 b,
             round2 ((getByKey (get_total_by_category db y m) c.name).getD 0),
             round2 ((getByKey (get_total_by_category db y m) c.name).getD 0
               - b)⟩) ∧
    (check_category_budgets db y m).Nodup ∧
    get_budget_alerts gb db y m
      = check_global_budget gb db y m ++ check_category_budgets db y m := by
  obtain ⟨hnames, -, -⟩ := hwf
  refine ⟨?_, ?_, ?_, ?_, ?_, ?_, rfl⟩
  · intro h; subst h; rfl
  · intro h; subst h
    unfold check_global_budget
    dsimp only
    rw [if_pos rfl]
  · intro b hb h0 hlt; subst hb
    unfold check_global_budget
    dsimp only
    rw [if_neg h0, if_pos hlt]
  · intro b hb h0 hlt; subst hb
    unfold check_global_budget
    dsimp only
    rw [if_neg h0, if_neg hlt]
  · intro a
    unfold check_category_budgets
    rw [List.mem_filterMap]
    constructor
    · rintro ⟨c, hc, hfc⟩
      refine ⟨c, hc, ?_⟩
      cases hm : c.monthlyBudget with
      | none => rw [hm] at hfc; cases hfc
      | some b =>
        rw [hm] at hfc
        simp only at hfc
        split_ifs at hfc with h0 hlt
        exact ⟨b, rfl, h0, hlt, (Option.some.inj hfc).symm⟩
    · rintro ⟨c, hc, b, hm, h0, hlt, rfl⟩
      refine ⟨c, hc, ?_⟩
      rw [hm]
      simp only
      rw [if_neg h0, if_pos hlt]
  · unfold check_category_budgets
    refine nodup_filterMap_names ?_ db.categories hnames
    intro c a hfc
    cases hm : c.monthlyBudget with
    | none => rw [hm] at hfc; cases hfc
    | some b =>
      rw [hm] at hfc
      simp only at hfc
      split_ifs at hfc
      rw [← Option.some.inj hfc]

/-- C2 witness: on exDB with a global budget of 100, january spending of
115.5 triggers exactly the global alert, and the Transport category with
budget 40 and spend 60 appears among the category alerts. -/
theorem budgetAlerts_spec_witness :
    exDB.WF ∧
    check_global_budget (some 100) exDB 2025 1
      = [⟨"global", none, round2 100,
          round2 (get_monthly_total exDB 2025 1 none),
          round2 (get_monthly_total exDB 2025 1 none - 100)⟩] ∧
    (⟨"category", some "Transport", round2 40,
      round2 ((getByKey (get_total_by_category exDB 2025 1)
        "Transport").getD 0),
      round2 ((getByKey (get_total_by_category exDB 2025 1)
        "Transport").getD 0 - 40)⟩ : Alert)
      ∈ check_category_budgets exDB 2025 1 :=
  ⟨by decide,
   (budgetAlerts_spec (some 100) exDB 2025 1 (by decide)).2.2.1 100 rfl
     (by decide) (by decide),
   ((budgetAlerts_spec (some 100) exDB 2025 1 (by decide)).2.2.2.2.1
       _).mpr
     ⟨exCatB, by decide, 40, rfl, by decide, by decide, by decide⟩⟩

/-! ## Import loop lemmas -/

theorem parseDate_empty : parseDate "" = none := rfl

theorem validate_row_none_elim (today : Date) (row : Row) (n : Nat)
    (h : validate_row today row n = none) :
    ∃ d a, parseDate (pyStrip (row.date.getD "")) = some d ∧
      parseAmount (pyStrip (row.amount.getD "")) = some a := by
  unfold validate_row at h
  by_cases h1 : pyStrip (row.date.getD "") = ""
  · rw [if_pos h1] at h; cases h
  · rw [if_neg h1] at h
    cases hpd : parseDate (pyStrip (row.date.getD "")) with
    | none => simp [hpd] at h
    | some d =>
      simp only [hpd] at h
      refine ⟨d, ?_⟩
      cases h2 : dateLt today d with
      | true => simp [h2] at h
      | false =>
        simp only [h2, Bool.false_eq_true, if_false] at h
        by_cases h3 : pyStrip (row.description.getD "") = ""
        · rw [if_pos h3] at h; cases h
        · rw [if_neg h3] at h
          by_cases h4 : pyStrip (row.amount.getD "") = ""
          · rw [if_pos h4] at h; cases h
          · rw [if_neg h4] at h
            cases hpa : parseAmount (pyStrip (row.amount.getD "")) with
            | none => simp [hpa] at h
            | some a => exact ⟨a, rfl, rfl⟩

theorem stageRow_ok_of_valid (today : Date) (n : Nat) (row : Row)
    (h : validate_row today row n = none) (s : Sess) :
    (stageRow row s).1 = true := by
  obtain ⟨d, a, hd, ha⟩ := validate_row_none_elim today row n h
  unfold stageRow
  dsimp only
  rw [hd, ha]

theorem processRows_accounting (today : Date) :
    ∀ (rows : List Row) (n : Nat) (s : Sess),
      (processRows today n rows s).1.inserted
          + (processRows today n rows s).1.skipped = rows.length ∧
      (processRows today n rows s).1.errors.length
          = (processRows today n rows s).1.skipped ∧
      (processRows today n rows s).1.errors
          = (List.enumFrom n rows).filterMap
              (fun p => validate_row today p.2 p.1) := by
  intro rows
  induction rows with
  | nil => intro n s; exact ⟨rfl, rfl, rfl⟩
  | cons row rest ih =>
    intro n s
    unfold processRows
    cases hv : validate_row today row n with
    | some err =>
      dsimp only
      obtain ⟨ih1, ih2, ih3⟩ := ih (n + 1) s
      refine ⟨?_, ?_, ?_⟩
      · simp only [List.length_cons]
        omega
      · simp only [List.length_cons, ih2]
      · simp only [List.enumFrom_cons, List.filterMap_cons, hv, ih3]
    | none =>
      have hst := stageRow_ok_of_valid today n row hv s
      dsimp only
      rw [hst]
      simp only [if_true]
      obtain ⟨ih1, ih2, ih3⟩ := ih (n + 1) (stageRow row s).2
      refine ⟨?_, ?_, ?_⟩
      · simp only [List.length_cons]
        omega
      · exact ih2
      · simp only [List.enumFrom_cons, List.filterMap_cons, hv, ih3]

/-- C3: over any parsed batch with at least one data row, the row loop
validates each row with the five checks in program order (the reported
message is the first failing check), counts every failing row as exactly
one skip with exactly one row-scoped message built from the row number
(position + 2, the header being row 1), keeps the error list in row order
with one entry per skipped row, never aborts (inserted + skipped covers
every data row), and a fully valid row produces no message. -/
theorem import_row_validation_spec (today : Date) (rows : List Row)
    (s : Sess) (hne : rows ≠ []) :
    ((processRows today 2 rows s).1.inserted
        + (processRows today 2 rows s).1.skipped = rows.length) ∧
    ((processRows today 2 rows s).1.errors.length
        = (processRows today 2 rows s).1.skipped) ∧
    ((processRows today 2 rows s).1.errors
        = (List.enumFrom 2 rows).filterMap
            (fun p => validate_row today p.2 p.1)) ∧
    (∀ n row msg, validate_row today row n = some msg →
        ∃ reason, msg = "Ligne " ++ toString n ++ ": " ++ reason) ∧
    (∀ n row, pyStrip (row.date.getD "") = "" →
        validate_row today row n = some (ligne n "La date est obligatoire")) ∧
    (∀ n row, pyStrip (row.date.getD "") ≠ "" →
        parseDate (pyStrip (row.date.getD "")) = none →
        validate_row today row n
          = some (ligne n "La date doit être au format YYYY-MM-DD")) ∧
    (∀ n row d, parseDate (pyStrip (row.date.getD "")) = some d →
        dateLt today d = true →
        validate_row today row n
          = some (ligne n "La date ne peut pas être dans le futur")) ∧
    (∀ n row d, parseDate (pyStrip (row.date.getD "")) = some d →
        dateLt today d = false →
        pyStrip (row.description.getD "") = "" →
        validate_row today row n
          = some (ligne n "La description est obligatoire")) ∧
    (∀ n row d, parseDate (pyStrip (row.date.getD "")) = some d →
        dateLt today d = false →
        pyStrip (row.description.getD "") ≠ "" →
        pyStrip (row.amount.getD "") = "" →
        validate_row today row n
          = some (ligne n "Le montant est obligatoire")) ∧
    (∀ n row d, parseDate (pyStrip (row.date.getD "")) = some d →
        dateLt today d = false →
        pyStrip (row.description.getD "") ≠ "" →
        pyStrip (row.amount.getD "") ≠ "" →
        parseAmount (pyStrip (row.amount.getD "")) = none →
        validate_row today row n
          = some (ligne n "Le montant doit être un nombre (ex: 45.99)")) ∧
    (∀ n row d a, parseDate (pyStrip (row.date.getD "")) = some d →
        dateLt today d = false →
        pyStrip (row.description.getD "") ≠ "" →
        pyStrip (row.amount.getD "") ≠ "" →
        parseAmount (pyStrip (row.amount.getD "")) = some a →
        (a = 0 →
          validate_row today row n
            = some (ligne n "Le montant ne peut être égal à 0")) ∧
        (a ≠ 0 → validate_row today row n = none)) := by
  have hdne : ∀ (row : Row) (d : Date),
      parseDate (pyStrip (row.date.getD "")) = some d →
      pyStrip (row.date.getD "") ≠ "" := by
    intro row d hd he
    rw [he, parseDate_empty] at hd
    cases hd
  obtain ⟨ha1, ha2, ha3⟩ := processRows_accounting today rows 2 s
  refine ⟨ha1, ha2, ha3, ?_, ?_, ?_, ?_, ?_, ?_, ?_, ?_⟩
  · intro n row msg h
    unfold validate_row at h
    by_cases h1 : pyStrip (row.date.getD "") = ""
    · rw [if_pos h1] at h
      exact ⟨"La date est obligatoire", (Option.some.inj h).symm⟩
    · rw [if_neg h1] at h
      cases hpd : parseDate (pyStrip (row.date.getD "")) with
      | none =>
        simp only [hpd] at h
        exact ⟨"La date doit être au format YYYY-MM-DD",
          (Option.some.inj h).symm⟩
      | some d =>
        simp only [hpd] at h
        cases h2 : dateLt today d with
        | true =>
          rw [h2, if_pos rfl] at h
          exact ⟨"La date ne peut pas être dans le futur",
            (Option.some.inj h).symm⟩
        | false =>
          rw [h2, if_neg Bool.false_ne_true] at h
          by_cases h3 : pyStrip (row.description.getD "") = ""
          · rw [if_pos h3] at h
            exact ⟨"La description est obligatoire", (Option.some.inj h).symm⟩
          · rw [if_neg h3] at h
            by_cases h4 : pyStrip (row.amount.getD "") = ""
            · rw [if_pos h4] at h
              exact ⟨"Le montant est obligatoire", (Option.some.inj h).symm⟩
            · rw [if_neg h4] at h
              cases hpa : parseAmount (pyStrip (row.amount.getD "")) with
              | none =>
                simp only [hpa] at h
                exact ⟨"Le montant doit être un nombre (ex: 45.99)",
                  (Option.some.inj h).symm⟩
              | some a =>
                simp only [hpa] at h
                by_cases ha : a = 0
                · rw [if_pos ha] at h
                  exact ⟨"Le montant ne peut être égal à 0",
                    (Option.some.inj h).symm⟩
                · rw [if_neg ha] at h
                  cases h
  · intro n row h1
    unfold validate_row
    rw [if_pos h1]
  · intro n row h1 hpd
    unfold validate_row
    rw [if_neg h1]
    simp only [hpd]
  · intro n row d hd h2
    unfold validate_row
    rw [if_neg (hdne row d hd)]
    simp only [hd, h2, if_true]
  · intro n row d hd h2 h3
    unfold validate_row
    rw [if_neg (hdne row d hd)]
    simp only [hd, h2]
    rw [if_neg Bool.false_ne_true, if_pos h3]
  · intro n row d hd h2 h3 h4
    unfold validate_row
    rw [if_neg (hdne row d hd)]
    simp only [hd, h2]
    rw [if_neg Bool.false_ne_true, if_neg h3, if_pos h4]
  · intro n row d hd h2 h3 h4 hpa
    unfold validate_row
    rw [if_neg (hdne row d hd)]
    simp only [hd, h2]
    rw [if_neg Bool.false_ne_true, if_neg h3, if_neg h4]
    simp only [hpa]
  · intro n row d a hd h2 h3 h4 hpa
    constructor
    · intro ha
      unfold validate_row
      rw [if_neg (hdne row d hd)]
      simp only [hd, h2]
      rw [if_neg Bool.false_ne_true, if_neg h3, if_neg h4]
      simp only [hpa]
      rw [if_pos ha]
    · intro ha
      unfold validate_row
      rw [if_neg (hdne row d hd)]
      simp only [hd, h2]
      rw [if_neg Bool.false_ne_true, if_neg h3, if_neg h4]
      simp only [hpa]
      rw [if_neg ha]

/-- C3 witness: a two-row batch whose first data row (row 2) has an invalid
month: one insert, one skip, and the single error carries the row number 2. -/
theorem import_row_validation_spec_witness :
    ([rowBad, rowOk] : List Row) ≠ [] ∧
    (processRows tdyEx 2 [rowBad, rowOk] (Sess.ofDB exDB)).1.inserted
        + (processRows tdyEx 2 [rowBad, rowOk] (Sess.ofDB exDB)).1.skipped
        = 2 ∧
    (processRows tdyEx 2 [rowBad, rowOk] (Sess.ofDB exDB)).1.errors
        = (List.enumFrom 2 [rowBad, rowOk]).filterMap
            (fun p => validate_row tdyEx p.2 p.1) ∧
    (processRows tdyEx 2 [rowBad, rowOk] (Sess.ofDB exDB)).1.errors
        = ["Ligne 2: La date doit être au format YYYY-MM-DD"] :=
  ⟨by decide,
   (import_row_validation_spec tdyEx [rowBad, rowOk] (Sess.ofDB exDB)
     (by decide)).1,
   (import_row_validation_spec tdyEx [rowBad, rowOk] (Sess.ofDB exDB)
     (by decide)).2.2.1,
   by decide⟩

/-- C4: the three batch-abort cases are atomic and report shaped: an
undecodable payload, a payload with zero data rows, and a failing final
commit each return a report with inserted = 0, skipped = 0 and exactly one
batch-level error string, and leave the persisted ledger exactly as it was,
discarding every staged row and auto-created category. -/
theorem import_batch_abort_spec (today : Date) (db : DB) :
    (∀ ce, import_transactions_from_csv today .undecodable ce db
      = (⟨0, 0, ["Erreur de décodage : le fichier doit être encodé en UTF-8"]⟩,
         db)) ∧
    (∀ ce, import_transactions_from_csv today (.decoded []) ce db
      = (⟨0, 0, ["Le fichier CSV est vide ou mal formaté"]⟩, db)) ∧
    (∀ rows msg, rows ≠ [] →
      import_transactions_from_csv today (.decoded rows) (some msg) db
        = (⟨0, 0, ["Erreur lors de l\x27import : " ++ msg]⟩, db)) := by
  refine ⟨fun ce => rfl, fun ce => rfl, ?_⟩
  intro rows msg h
  cases rows with
  | nil => exact absurd rfl h
  | cons r rest => rfl

/-- C4 witness: the three abort cases at concrete inputs, each returning
the zeroed report and leaving exDB untouched. -/
theorem import_batch_abort_spec_witness :
    import_transactions_from_csv tdyEx .undecodable none exDB
      = (⟨0, 0, ["Erreur de décodage : le fichier doit être encodé en UTF-8"]⟩,
         exDB) ∧
    import_transactions_from_csv tdyEx (.decoded []) none exDB
      = (⟨0, 0, ["Le fichier CSV est vide ou mal formaté"]⟩, exDB) ∧
    ([rowOk] : List Row) ≠ [] ∧
    import_transactions_from_csv tdyEx (.decoded [rowOk]) (some "panne") exDB
      = (⟨0, 0, ["Erreur lors de l\x27import : panne"]⟩, exDB) :=
  ⟨(import_batch_abort_spec tdyEx exDB).1 none,
   (import_batch_abort_spec tdyEx exDB).2.1 none,
   by decide,
   (import_batch_abort_spec tdyEx exDB).2.2 [rowOk] "panne" (by decide)⟩

/-! ## Category auto-creation lemmas -/

theorem get_or_create_nodup (s : Sess) (nm : String)
    (h : (s.categories.map Category.name).Nodup) :
    (((get_or_create_category s nm).2.categories).map Category.name).Nodup := by
  cases hf : s.categories.find? (fun c => c.name == nm) with
  | some c => simp only [get_or_create_category, hf]; exact h
  | none =>
    simp only [get_or_create_category, hf]
    rw [List.map_append]
    have hnm : nm ∉ s.categories.map Category.name := by
      intro hmem
      obtain ⟨c, hc, hcn⟩ := List.mem_map.mp hmem
      exact List.find?_eq_none.mp hf c hc (by simpa using hcn)
    simp [List.nodup_append, h, hnm]

theorem stageRow_categories (row : Row) (s : Sess) :
    (stageRow row s).2.categories
      = if pyStrip (row.category.getD "") ≠ ""
        then (get_or_create_category s
          (pyStrip (row.category.getD ""))).2.categories
        else s.categories := by
  unfold stageRow
  dsimp only
  by_cases hc : pyStrip (row.category.getD "") ≠ "" <;>
    cases hpd : parseDate (pyStrip (row.date.getD "")) <;>
    cases hpa : parseAmount (pyStrip (row.amount.getD "")) <;>
    simp [hc, hpd, hpa]

theorem stageRow_nodup (row : Row) (s : Sess)
    (h : (s.categories.map Category.name).Nodup) :
    (((stageRow row s).2.categories).map Category.name).Nodup := by
  rw [stageRow_categories]
  by_cases hc : pyStrip (row.category.getD "") ≠ ""
  · rw [if_pos hc]
    exact get_or_create_nodup s _ h
  · rw [if_neg hc]
    exact h

theorem processRows_nodup (today : Date) :
    ∀ (rows : List Row) (n : Nat) (s : Sess),
      (s.categories.map Category.name).Nodup →
      (((processRows today n rows s).2.categories).map Category.name).Nodup := by
  intro rows
  induction rows with
  | nil => intro n s h; exact h
  | cons row rest ih =>
    intro n s h
    unfold processRows
    cases hv : validate_row today row n with
    | some err =>
      dsimp only
      exact ih (n + 1) s h
    | none =>
      dsimp only
      have hs' := stageRow_nodup row s h
      split
      · exact ih (n + 1) (stageRow row s).2 hs'
      · exact ih (n + 1) (stageRow row s).2 hs'

/-- C7: during an import, a non-empty trimmed category cell reuses the
first category with that exact display name when one is visible; otherwise
a new category is created with that name, the fixed default color and no
budget, it receives the next generated id, is appended to the visible
category rows of the uncommitted session, and a later lookup of the same
name in the same batch returns this same category without creating another;
consequently the row loop never duplicates a category name. -/
theorem get_or_create_category_spec (s : Sess) (nm : String) :
    (∀ c, s.categories.find? (fun d => d.name == nm) = some c →
        get_or_create_category s nm = (c, s)) ∧
    (s.categories.find? (fun d => d.name == nm) = none →
        (get_or_create_category s nm).1.name = nm ∧
        (get_or_create_category s nm).1.color = some DEFAULT_CATEGORY_COLOR ∧
        (get_or_create_category s nm).1.monthlyBudget = none ∧
        (get_or_create_category s nm).1.id = s.nextCatId ∧
        (get_or_create_category s nm).2.categories
          = s.categories ++ [(get_or_create_category s nm).1] ∧
        (get_or_create_category s nm).2.staged = s.staged ∧
        get_or_create_category (get_or_create_category s nm).2 nm
          = ((get_or_create_category s nm).1,
             (get_or_create_category s nm).2)) ∧
    (∀ (today : Date) (n : Nat) (rows : List Row),
        (s.categories.map Category.name).Nodup →
        (((processRows today n rows s).2.categories).map
          Category.name).Nodup) := by
  refine ⟨?_, ?_, ?_⟩
  · intro c h
    simp only [get_or_create_category, h]
  · intro h
    simp only [get_or_create_category, h]
    refine ⟨trivial, trivial, trivial, trivial, trivial, trivial, ?_⟩
    rw [List.find?_append, h]
    simp
  · intro today n rows hnd
    exact processRows_nodup today rows n s hnd

/-- C7 witness: importing two rows naming the unknown category Nouvelle
creates it once with id 3 (the next generated id of exDB), both staged
transactions reference that single id, and the category names stay without
duplicate. -/
theorem get_or_create_category_spec_witness :
    (Sess.ofDB exDB).categories.find? (fun d => d.name == "Nouvelle")
      = none ∧
    (get_or_create_category (Sess.ofDB exDB) "Nouvelle").1.id
      = (Sess.ofDB exDB).nextCatId ∧
    get_or_create_category
        (get_or_create_category (Sess.ofDB exDB) "Nouvelle").2 "Nouvelle"
      = ((get_or_create_category (Sess.ofDB exDB) "Nouvelle").1,
         (get_or_create_category (Sess.ofDB exDB) "Nouvelle").2) ∧
    ((Sess.ofDB exDB).categories.map Category.name).Nodup ∧
    (((processRows tdyEx 2 [rowNew, rowNew2]
        (Sess.ofDB exDB)).2.categories).map Category.name).Nodup ∧
    (processRows tdyEx 2 [rowNew, rowNew2] (Sess.ofDB exDB)).2.staged.map
        Txn.categoryId = [some 3, some 3] :=
  ⟨by decide,
   ((get_or_create_category_spec (Sess.ofDB exDB) "Nouvelle").2.1
     (by decide)).2.2.2.1,
   ((get_or_create_category_spec (Sess.ofDB exDB) "Nouvelle").2.1
     (by decide)).2.2.2.2.2.2,
   by decide,
   (get_or_create_category_spec (Sess.ofDB exDB) "Nouvelle").2.2 tdyEx 2
     [rowNew, rowNew2] (by decide),
   by decide⟩

/-! ## Partition of the window sum over the category table -/

theorem sum_ite_zero (l : List Category) (j : Nat) (x : ℚ)
    (h : ∀ c ∈ l, c.id ≠ j) :
    (l.map (fun c => if c.id = j then x else 0)).sum = 0 := by
  induction l with
  | nil => rfl
  | cons a l ih =>
    rw [List.map_cons, List.sum_cons,
      if_neg (h a (List.mem_cons_self a l)),
      ih (fun c hc => h c (List.mem_cons_of_mem a hc))]
    norm_num

theorem sum_ite_unique (l : List Category) (j : Nat) (x : ℚ)
    (hnd : (l.map Category.id).Nodup)
    (hmem : l.any (fun c => c.id == j) = true) :
    (l.map (fun c => if c.id = j then x else 0)).sum = x := by
  induction l with
  | nil => simp at hmem
  | cons a l ih =>
    rw [List.map_cons, List.nodup_cons] at hnd
    obtain ⟨hna, hnd'⟩ := hnd
    rw [List.map_cons, List.sum_cons]
    by_cases ha : a.id = j
    · rw [if_pos ha]
      have hz : (l.map (fun c => if c.id = j then x else 0)).sum = 0 := by
        refine sum_ite_zero l j x (fun c hc hcj => ?_)
        exact hna (ha ▸ hcj ▸ List.mem_map_of_mem Category.id hc)
      rw [hz]
      norm_num
    · rw [if_neg ha]
      have hmem' : l.any (fun c => c.id == j) = true := by
        rcases List.any_eq_true.mp hmem with ⟨c, hc, hcj⟩
        rcases List.mem_cons.mp hc with rfl | hcl
        · exact absurd (by simpa using hcj) ha
        · exact List.any_eq_true.mpr ⟨c, hcl, hcj⟩
      rw [ih hnd' hmem']
      norm_num

theorem sum_window_partition (cats : List Category) (y m : Nat)
    (hnd : (cats.map Category.id).Nodup) :
    ∀ ts : List Txn,
      (∀ t ∈ ts, ∀ j, t.categoryId = some j →
        cats.any (fun c => c.id == j) = true) →
      ((ts.filter (fun t => inWindow y m t)).map Txn.amount).sum
        = (cats.map (fun c =>
            ((ts.filter (fun t =>
              inWindow y m t && t.categoryId == some c.id)).map
                Txn.amount).sum)).sum
          + ((ts.filter (fun t =>
              inWindow y m t && t.categoryId == none)).map Txn.amount).sum := by
  intro ts
  induction ts with
  | nil =>
    intro _
    simp
  | cons t ts ih =>
    intro hfk
    have hfk' : ∀ t' ∈ ts, ∀ j, t'.categoryId = some j →
        cats.any (fun c => c.id == j) = true :=
      fun t' ht' => hfk t' (List.mem_cons_of_mem t ht')
    have IH := ih hfk'
    by_cases hw : inWindow y m t = true
    · cases hcid : t.categoryId with
      | none =>
        rw [List.filter_cons_of_pos (by simp [hw]),
          List.filter_cons_of_pos (by simp [hw, hcid])]
        have hcats : cats.map (fun c =>
            (((t :: ts).filter (fun t' =>
              inWindow y m t' && t'.categoryId == some c.id)).map
                Txn.amount).sum)
            = cats.map (fun c =>
              ((ts.filter (fun t' =>
                inWindow y m t' && t'.categoryId == some c.id)).map
                  Txn.amount).sum) := by
          refine List.map_congr_left (fun c _ => ?_)
          rw [List.filter_cons_of_neg (by simp [hcid])]
        rw [hcats, List.map_cons, List.sum_cons, List.map_cons,
          List.sum_cons, IH]
        ring
      | some j =>
        rw [List.filter_cons_of_pos (by simp [hw]),
          List.filter_cons_of_neg (by simp [hcid])]
        have hcats : cats.map (fun c =>
            (((t :: ts).filter (fun t' =>
              inWindow y m t' && t'.categoryId == some c.id)).map
                Txn.amount).sum)
            = cats.map (fun c =>
              (if c.id = j then t.amount else 0)
                + ((ts.filter (fun t' =>
                    inWindow y m t' && t'.categoryId == some c.id)).map
                      Txn.amount).sum) := by
          refine List.map_congr_left (fun c _ => ?_)
          by_cases hcj : c.id = j
          · rw [List.filter_cons_of_pos (by simp [hw, hcid, hcj]),
              List.map_cons, List.sum_cons, if_pos hcj]
          · rw [List.filter_cons_of_neg
                (by simp [hcid]; exact fun _ h => hcj h.symm), if_neg hcj]
            norm_num
        rw [hcats, List.sum_map_add, List.map_cons, List.sum_cons,
          sum_ite_unique cats j t.amount hnd
            (hfk t (List.mem_cons_self t ts) j hcid),
          IH]
        ring
    · have hw' : inWindow y m t = false := by
        cases hwb : inWindow y m t
        · rfl
        · exact absurd hwb hw
      rw [List.filter_cons_of_neg (by simp [hw']),
        List.filter_cons_of_neg (by simp [hw'])]
      have hcats : cats.map (fun c =>
          (((t :: ts).filter (fun t' =>
            inWindow y m t' && t'.categoryId == some c.id)).map
              Txn.amount).sum)
          = cats.map (fun c =>
            ((ts.filter (fun t' =>
              inWindow y m t' && t'.categoryId == some c.id)).map
                Txn.amount).sum) := by
        refine List.map_congr_left (fun c _ => ?_)
        rw [List.filter_cons_of_neg (by simp [hw'])]
      rw [hcats, IH]

theorem monthly_total_none (db : DB) (y m : Nat) :
    get_monthly_total db y m none
      = ((db.transactions.filter (fun t => inWindow y m t)).map
          Txn.amount).sum := by
  unfold get_monthly_total
  congr 2
  apply List.filter_congr
  intro t _
  exact Bool.and_true _

theorem sum_filter_eq_sum (P : Category → Bool) (f : Category → ℚ) :
    ∀ l : List Category, (∀ c ∈ l, P c = false → f c = 0) →
      ((l.filter P).map f).sum = (l.map f).sum := by
  intro l
  induction l with
  | nil => intro _; rfl
  | cons a l ih =>
    intro h
    have h' : ∀ c ∈ l, P c = false → f c = 0 :=
      fun c hc => h c (List.mem_cons_of_mem a hc)
    cases hPa : P a with
    | true =>
      rw [List.filter_cons_of_pos hPa, List.map_cons, List.sum_cons,
        List.map_cons, List.sum_cons, ih h']
    | false =>
      rw [List.filter_cons_of_neg (by simp [hPa]), List.map_cons,
        List.sum_cons, h a (List.mem_cons_self a l) hPa, ih h']
      norm_num

theorem sumValues_namedTotals (db : DB) (y m : Nat) :
    sumValues (namedTotals db y m)
      = (db.categories.map (fun c => catAmount db y m c)).sum := by
  unfold sumValues namedTotals
  rw [List.map_map]
  refine sum_filter_eq_sum _ _ db.categories (fun c _ hP => ?_)
  have he : (catTxns db y m c).isEmpty = true := by
    cases hP' : (catTxns db y m c).isEmpty
    · rw [hP'] at hP
      cases hP
    · rfl
  have hnil : catTxns db y m c = [] := by
    cases hl : catTxns db y m c
    · rfl
    · rw [hl] at he
      cases he
  show catAmount db y m c = 0
  unfold catAmount
  rw [hnil]
  rfl

theorem fk_any (db : DB) (hfk : fkOk db = true) :
    ∀ t ∈ db.transactions, ∀ j, t.categoryId = some j →
      db.categories.any (fun c => c.id == j) = true := by
  intro t ht j hj
  have h := List.all_eq_true.mp hfk t ht
  rw [hj] at h
  exact h

theorem sumValues_totals (db : DB) (y m : Nat) (hwf : db.WF)
    (hns : ∀ c ∈ db.categories, c.name ≠ SANS_CATEGORIE) :
    sumValues (get_total_by_category db y m)
      = get_monthly_total db y m none := by
  obtain ⟨hnames, hids, hfk⟩ := hwf
  have hpart : ((db.transactions.filter (fun t => inWindow y m t)).map
        Txn.amount).sum
      = (db.categories.map (fun c => catAmount db y m c)).sum
        + uncatSum db y m :=
    sum_window_partition db.categories y m hids db.transactions
      (fk_any db hfk)
  have hkeys : ∀ p ∈ namedTotals db y m, p.1 ≠ SANS_CATEGORIE := by
    intro p hp
    obtain ⟨c, hc, rfl⟩ := List.mem_map.mp hp
    exact hns c (List.mem_of_mem_filter hc)
  rw [monthly_total_none, hpart]
  unfold get_total_by_category
  by_cases hu : uncatSum db y m = 0
  · rw [if_neg (not_not_intro hu), sumValues_namedTotals, hu]
    norm_num
  · rw [if_pos hu, setKey_of_absent _ hkeys]
    unfold sumValues
    rw [List.map_append, List.sum_append]
    have : sumValues (namedTotals db y m)
        = (db.categories.map (fun c => catAmount db y m c)).sum :=
      sumValues_namedTotals db y m
    unfold sumValues at this
    rw [this]
    simp

/-- C8 counterexample: in exDB8 the monthly total is 0.008, nonzero, its
rounding is 0.01, but each of the two 0.004 category totals rounds to 0, so
the breakdown totals sum to 0 and the claimed equality fails. -/
theorem breakdown_total_sum_cex :
    get_monthly_total exDB8 2025 1 none ≠ 0 ∧
    ((get_category_breakdown exDB8 2025 1).map (fun p => p.2.total)).sum
      ≠ round2 (get_monthly_total exDB8 2025 1 none) :=
  ⟨by decide, by decide⟩

/-- C8 (amended): over a well-formed ledger with no category named like the
reserved label, whenever the monthly total is nonzero and every per-label
total of the totals mapping is already exact to 2 decimals (for example,
all amounts in whole cents), the sum of the breakdown totals equals the
monthly total rounded to 2 decimals; with sub-cent label totals the two
sides can differ by the per-label rounding. -/
theorem breakdown_total_sum_amended (db : DB) (y m : Nat) (hwf : db.WF)
    (hns : ∀ c ∈ db.categories, c.name ≠ SANS_CATEGORIE)
    (hcents : ∀ p ∈ get_total_by_category db y m, round2 p.2 = p.2)
    (hnz : get_monthly_total db y m none ≠ 0) :
    ((get_category_breakdown db y m).map (fun p => p.2.total)).sum
      = round2 (get_monthly_total db y m none) := by
  have hsum := sumValues_totals db y m hwf hns
  have hg : sumValues (get_total_by_category db y m) ≠ 0 := by
    rw [hsum]
    exact hnz
  have h2d : ∀ q ∈ (get_total_by_category db y m).map Prod.snd,
      ∃ z : ℤ, q = (z : ℚ) / 100 := by
    intro q hq
    obtain ⟨p, hp, rfl⟩ := List.mem_map.mp hq
    exact round2_fix_exists (hcents p hp)
  obtain ⟨Z, hZ⟩ := sum_twodec h2d
  have htot2d : get_monthly_total db y m none = (Z : ℚ) / 100 := by
    rw [← hsum]
    unfold sumValues
    exact hZ
  unfold get_category_breakdown
  rw [if_neg hg, List.map_map]
  have hmap : ((fun p => BreakdownEntry.total p.2) ∘ fun p =>
      ((p.1, ⟨round2 p.2,
        round2 (p.2 / sumValues (get_total_by_category db y m) * 100),
        labelCount db y m p.1⟩) : String × BreakdownEntry))
      = fun p : String × ℚ => round2 p.2 := rfl
  rw [hmap]
  have hcongr : (get_total_by_category db y m).map
      (fun p : String × ℚ => round2 p.2)
      = (get_total_by_category db y m).map (fun p => p.2) :=
    List.map_congr_left (fun p hp => hcents p hp)
  rw [hcongr, htot2d, round2_div_hundred]
  have : ((get_total_by_category db y m).map Prod.snd).sum
      = get_monthly_total db y m none := hsum
  rw [htot2d] at this
  exact this

/-- C8 witness: the amended equality on exDB, whose january label totals
45.5, 60 and 10 are all exact to 2 decimals. -/
theorem breakdown_total_sum_amended_witness :
    exDB.WF ∧
    (∀ p ∈ get_total_by_category exDB 2025 1, round2 p.2 = p.2) ∧
    get_monthly_total exDB 2025 1 none ≠ 0 ∧
    ((get_category_breakdown exDB 2025 1).map (fun p => p.2.total)).sum
      = round2 (get_monthly_total exDB 2025 1 none) :=
  ⟨by decide, by decide, by decide,
   breakdown_total_sum_amended exDB 2025 1 (by decide) (by decide)
     (by decide) (by decide)⟩

end LedgerOne
